import Mathlib

/-!
Verification of the `calo_logs_analyzer` core: a shallow embedding of
`compute.py` (`build_ledger`) and `anomalies.py` (`detect_anomalies`).

Monetary values are modelled as exact rationals (`ℚ`): Python `Decimal`
arithmetic on the operations used here (addition, subtraction, `quantize`)
is exact rational arithmetic, and "unknown" (`None`/`NaN`) is `Option`.
Event fields carry the values as they stand after the `pd.to_numeric`
coercion of `build_ledger` (each surviving float is an exact rational).
-/

attribute [local semireducible] Rat.add Rat.mul Rat.sub Rat.inv Rat.ofScientific

namespace CaloLogs

/-- ASCII upper-casing of one character, as Python `str.upper` acts on the
ASCII letters appearing in the analyzer's comparisons. -/
def upChar (c : Char) : Char :=
  if 97 ≤ c.toNat ∧ c.toNat ≤ 122 then Char.ofNat (c.toNat - 32) else c

/-- ASCII upper-casing of a string (model of Python `str.upper`). -/
def upStr (s : String) : String := String.mk (s.toList.map upChar)

/-- Boolean list-prefix test used by the substring search below. -/
def isPrefixDL : List Char → List Char → Bool
  | [], _ => true
  | _ :: _, [] => false
  | a :: as, b :: bs => a == b && isPrefixDL as bs

/-- Boolean substring test on character lists. -/
def isSubDL : List Char → List Char → Bool
  | p, [] => p.isEmpty
  | p, c :: cs => isPrefixDL p (c :: cs) || isSubDL p cs

/-- Case-insensitive substring containment, the model of pandas
`.str.contains(pat, case=False)` for the plain (non-regex-metacharacter)
patterns used in `anomalies.py`. -/
def containsCI (s pat : String) : Bool :=
  isSubDL (upStr pat).toList (upStr s).toList

/-- Whitespace test covering the blank characters relevant to
`str.strip()` on the analyzer's fields. -/
def isWS (c : Char) : Bool := c == ' ' || c == '\t' || c == '\n' || c == '\r'

/-- Model of Python `str.strip()` (ASCII whitespace). -/
def trimWS (s : String) : String :=
  String.mk (((s.toList.dropWhile isWS).reverse.dropWhile isWS).reverse)

/-- Strict lexicographic comparison of strings by character code, the order
pandas uses when sorting string key columns. -/
def charListLt : List Char → List Char → Bool
  | [], [] => false
  | [], _ :: _ => true
  | _ :: _, [] => false
  | a :: as, b :: bs =>
    if a.toNat < b.toNat then true
    else if b.toNat < a.toNat then false
    else charListLt as bs

/-- Strict string order for sort keys. -/
def strLt (a b : String) : Bool := charListLt a.toList b.toList

/-- Floor of a rational, via flooring integer division (`Int.fdiv`) of the
normalised numerator by the (positive) denominator. -/
def qfloor (q : ℚ) : ℤ := Int.fdiv q.num q.den

/-- `Decimal.quantize(..., rounding=ROUND_HALF_UP)` tie-breaking: Python
`ROUND_HALF_UP` rounds to nearest with ties going away from zero. -/
def roundHalfAwayFromZero (q : ℚ) : ℤ :=
  if q < 0 then -(qfloor (-q + 1/2)) else qfloor (q + 1/2)

/-- Rounding a monetary value to `dps` decimal places using
round-half-away-from-zero, the model of
`x.quantize(Decimal("1").scaleb(-dps), rounding=ROUND_HALF_UP)`. -/
def quantize (dps : ℕ) (q : ℚ) : ℚ :=
  (roundHalfAwayFromZero (q * 10 ^ dps) : ℚ) / 10 ^ dps

/-- One parsed event, as the rows of `pd.DataFrame(events)` stand after the
`pd.to_numeric(..., errors="coerce")` pass of `build_ledger`: numeric fields
are `none` exactly when the coerced cell is `NaN`/missing, string fields are
`none` when the cell is missing/null. -/
structure Event where
  userId : String
  id : String
  messageId : String
  eventType : String
  type : Option String
  source : Option String
  action : Option String
  currency : Option String
  timestamp : Option ℚ
  amount : Option ℚ
  vat : Option ℚ
  oldBalance : Option ℚ
  newBalance : Option ℚ
  paymentBalance : Option ℚ
deriving DecidableEq, Repr

/-- Configuration of `build_ledger` (keyword arguments `decimals`,
`tolerance`, `currency_decimals`; the code substitutes
`{"SAR": 3, "BHD": 4}` for an absent mapping). -/
structure LedgerConfig where
  decimals : ℕ := 2
  tolerance : ℚ := 5/1000
  currencyDecimals : List (String × ℕ) := [("SAR", 3), ("BHD", 4)]
deriving DecidableEq, Repr

/-- Decimal places for a row, the model of `get_decimals`:
`currency_decimals.get((cur or "").upper(), decimals)`. -/
def getDecimals (cfg : LedgerConfig) (cur : Option String) : ℕ :=
  (cfg.currencyDecimals.lookup (upStr (cur.getD ""))).getD cfg.decimals

/-- The model of `str(row.get("type")).upper()`: a missing value prints as
`"None"` before upper-casing. -/
def typeUpper (e : Event) : String :=
  upStr (e.type.getD "None")

/-- One ledger row as computed by the per-row loop of `build_ledger`,
including the internal quantised columns (`_oldBalanceDec`,
`_newBalanceDec`, `_newBalanceFilled`) that the code later drops. -/
structure LedgerEntry where
  event : Event
  dps : ℕ
  expectedNewBalance : Option ℚ
  newBalanceQ : Option ℚ
  oldBalanceQ : Option ℚ
  balanceMismatch : Bool
  overdraft : Bool
  overdraftReason : Option String
  newBalanceFilled : Option ℚ
  suggestedAdjustment : ℚ
deriving DecidableEq, Repr

/-- The per-row computation of `build_ledger` (compute.py lines 78-162). -/
def computeRow (cfg : LedgerConfig) (e : Event) : LedgerEntry :=
  let dps := getDecimals cfg e.currency
  let amt := e.amount.getD 0
  let v := e.vat.getD 0
  let oldB := e.oldBalance.getD 0
  let expNew : Option ℚ :=
    if typeUpper e = "CREDIT" then some (oldB + (amt - v))
    else if typeUpper e = "DEBIT" then some (oldB - (amt - v))
    else none
  let expNewQ := expNew.map (quantize dps)
  let newBalQ := e.newBalance.map (quantize dps)
  let oldBalQ := e.oldBalance.map (quantize dps)
  let mismatch : Bool :=
    match expNewQ, newBalQ with
    | some a, some b => decide (|a - b| > cfg.tolerance)
    | _, _ => false
  let expNeg : Bool := match expNewQ with | some a => decide (a < 0) | none => false
  let actNeg : Bool := match newBalQ with | some b => decide (b < 0) | none => false
  let reason : Option String :=
    if expNeg && actNeg then some "expected balance < 0, actual balance < 0"
    else if actNeg then some "actual<0"
    else if expNeg then some "expected<0"
    else none
  let filled : Option ℚ :=
    match newBalQ with
    | some b => some b
    | none => expNewQ
  let sug : ℚ :=
    match mismatch, expNewQ, newBalQ with
    | true, some a, some b => quantize dps (a - b)
    | _, _, _ => 0
  { event := e
    dps := dps
    expectedNewBalance := expNewQ
    newBalanceQ := newBalQ
    oldBalanceQ := oldBalQ
    balanceMismatch := mismatch
    overdraft := reason.isSome
    overdraftReason := reason
    newBalanceFilled := filled
    suggestedAdjustment := sug }

/-- Order on optional timestamps with missing values (`NaT`) last, matching
`sort_values(..., na_position="last")`. -/
def tsLt (a b : Option ℚ) : Bool :=
  match a, b with
  | some x, some y => decide (x < y)
  | some _, none => true
  | none, _ => false

/-- Sort key of `tx.sort_values(["userId", "timestamp", "id", "messageId"])`
(lexicographic, missing timestamps last; the underlying lexsort is stable). -/
def ledgerKeyLE (x y : LedgerEntry) : Bool :=
  strLt x.event.userId y.event.userId ||
    (x.event.userId == y.event.userId &&
      (tsLt x.event.timestamp y.event.timestamp ||
        (x.event.timestamp == y.event.timestamp &&
          (strLt x.event.id y.event.id ||
            (x.event.id == y.event.id &&
              (strLt x.event.messageId y.event.messageId ||
                x.event.messageId == y.event.messageId))))))

/-- Annotate each list element with the value carried by the nearest earlier
element having the same (defined) key: the model of a pandas
`groupby(keys)[col].shift(1)` over rows in list order.  Rows whose key is
partially missing are dropped from grouping (`groupby` dropna) and read
`none`.  A stored `none` value and an absent predecessor both surface as
`none`, exactly as both print as `NaN` after `shift`. -/
def withPrev {α κ : Type} [BEq κ] (key : α → Option κ) (val : α → Option ℚ) :
    List α → List (κ × Option ℚ) → List (α × Option ℚ)
  | [], _ => []
  | r :: rest, seen =>
    match key r with
    | none => (r, none) :: withPrev key val rest seen
    | some k => (r, (seen.lookup k).join) :: withPrev key val rest ((k, val r) :: seen)

/-- The continuity test of `build_ledger` (`cont_break`): break iff the
quantised old balance and the previous filled new balance are both known
and differ by more than the tolerance. -/
def contBreak (tol : ℚ) (oldQ prev : Option ℚ) : Bool :=
  match oldQ, prev with
  | some ob, some p => decide (|ob - p| > tol)
  | _, _ => false

/-- The `BALANCE_SYNC` rows of the ledger after the per-row computation and
the `(userId, timestamp, id, messageId)` sort. -/
def sortedLedgerRows (cfg : LedgerConfig) (events : List Event) : List LedgerEntry :=
  ((events.filter (fun e => e.eventType == "BALANCE_SYNC")).map (computeRow cfg)).insertionSort
    (fun a b => ledgerKeyLE a b = true)

/-- The model of `build_ledger`: keep `BALANCE_SYNC` events, compute each
row, sort by `(userId, timestamp, id, messageId)`, then flag continuity
breaks against the per-user previous `_newBalanceFilled`.  The result pairs
each ledger row with its `continuityBreak` flag. -/
def buildLedger (cfg : LedgerConfig) (events : List Event) : List (LedgerEntry × Bool) :=
  (withPrev (fun r => some r.event.userId) (fun r => r.newBalanceFilled)
      (sortedLedgerRows cfg events) []).map
    (fun p => (p.1, contBreak cfg.tolerance p.1.oldBalanceQ p.2))

/-- Columns of `pd.DataFrame(events)` when the events carry the full record
shape of the parser. -/
def eventColumns : List String :=
  ["timestamp", "userId", "id", "messageId", "eventType", "type", "source", "action",
   "amount", "vat", "oldBalance", "newBalance", "paymentBalance", "currency"]

/-- Column list of the frame `build_ledger` returns.  `pd.DataFrame([])` has
no columns at all, so the early `if df.empty: return df` branch returns a
columnless frame; the `tx.empty` branch returns only the event columns; the
full path appends the derived columns (the temporary underscore columns are
dropped, `prevNewBalanceFilled` is not). -/
def ledgerColumns (events : List Event) : List String :=
  if events.isEmpty then []
  else if (events.filter (fun e => e.eventType == "BALANCE_SYNC")).isEmpty then eventColumns
  else
    eventColumns ++
      ["expectedNewBalance", "balanceMismatch", "overdraft", "overdraftReason",
       "suggestedAdjustment", "prevNewBalanceFilled", "continuityBreak"]

/-- One row of the ledger frame as `detect_anomalies` consumes it (the
fields the detector reads).  `continuityBreak`/`balanceMismatch` carry the
column values when the columns exist; presence of those columns is recorded
on `LedgerTable`. -/
structure LedgerRow where
  timestamp : Option ℚ
  userId : String
  id : String
  type : Option String
  source : Option String
  action : Option String
  amount : Option ℚ
  oldBalance : Option ℚ
  newBalance : Option ℚ
  currency : Option String
  expectedNewBalance : Option ℚ
  continuityBreak : Bool := false
  balanceMismatch : Bool := false
deriving DecidableEq, Repr

/-- The ledger frame handed to `detect_anomalies`: its rows together with
whether the optional pass-through columns are present (`"continuityBreak" in
df.columns`, `"balanceMismatch" in df.columns`). -/
structure LedgerTable where
  rows : List LedgerRow
  hasContinuityBreak : Bool := true
  hasBalanceMismatch : Bool := true

/-- Configuration of `detect_anomalies` (`mad_threshold`, `dup_time_window`). -/
structure AnomalyConfig where
  madThreshold : ℚ := 6
  dupTimeWindow : ℚ := 60
deriving DecidableEq, Repr

/-- An output row of `detect_anomalies`. -/
structure AnomalyRecord where
  timestamp : Option ℚ
  userId : String
  id : String
  type : Option String
  source : Option String
  action : Option String
  amount : Option ℚ
  oldBalance : Option ℚ
  newBalance : Option ℚ
  anomalyType : String
  details : String
deriving DecidableEq, Repr

/-- Build one anomaly record from a ledger row, copying the row fields that
every pass of `detect_anomalies` copies.  The human-readable `details`
strings are modelled as fixed descriptions (numeric interpolation of the
Python f-strings is presentational and not modelled). -/
def mkAnomaly (r : LedgerRow) (kind details : String) : AnomalyRecord :=
  { timestamp := r.timestamp
    userId := r.userId
    id := r.id
    type := r.type
    source := r.source
    action := r.action
    amount := r.amount
    oldBalance := r.oldBalance
    newBalance := r.newBalance
    anomalyType := kind
    details := details }

/-- Sort key of `df.sort_values(["userId", "timestamp", "id"])` with missing
timestamps last. -/
def rowKeyLE (x y : LedgerRow) : Bool :=
  strLt x.userId y.userId ||
    (x.userId == y.userId &&
      (tsLt x.timestamp y.timestamp ||
        (x.timestamp == y.timestamp && (strLt x.id y.id || x.id == y.id))))

/-- The initial sort of `detect_anomalies`. -/
def sortRows (rows : List LedgerRow) : List LedgerRow :=
  rows.insertionSort (fun a b => rowKeyLE a b = true)

/-- InvalidAction mask: `action` contains `INVALID` or `INVAILID`
case-insensitively (`na=False`: a missing action is not flagged). -/
def invalidMask (r : LedgerRow) : Bool :=
  match r.action with
  | some s => containsCI s "INVALID" || containsCI s "INVAILID"
  | none => false

/-- InvalidAction pass. -/
def invalidPass (df : List LedgerRow) : List AnomalyRecord :=
  (df.filter invalidMask).map (fun r => mkAnomaly r "InvalidAction" "Action contains INVALID")

/-- Median of a list of rationals, the model of `np.nanmedian` over the
non-missing amounts of a group: sort, take the middle element, or the mean
of the two middle elements; undefined (`NaN`) for an empty list. -/
def medianQ (l : List ℚ) : Option ℚ :=
  let s := l.insertionSort (fun a b : ℚ => a ≤ b)
  if s.isEmpty then none
  else if s.length % 2 = 1 then s.get? (s.length / 2)
  else
    match s.get? (s.length / 2 - 1), s.get? (s.length / 2) with
    | some a, some b => some ((a + b) / 2)
    | _, _ => none

/-- The known amounts of the `(userId, type)` group a row belongs to
(`groupby` drops rows whose `type` is missing; `nanmedian` drops missing
amounts). -/
def groupAmounts (rows : List LedgerRow) (uid ty : String) : List ℚ :=
  (rows.filter (fun r => r.userId == uid && r.type == some ty)).filterMap (fun r => r.amount)

/-- MADSpike mask for one row given the frame: the group median and MAD must
be defined and the MAD nonzero (else the group is skipped), and the modified
z-score `|amount − median| / MAD` must reach the threshold; a missing amount
has `NaN` score and is not flagged. -/
def madMask (th : ℚ) (rows : List LedgerRow) (r : LedgerRow) : Bool :=
  match r.type with
  | none => false
  | some ty =>
    match medianQ (groupAmounts rows r.userId ty) with
    | none => false
    | some med =>
      match medianQ ((groupAmounts rows r.userId ty).map (fun a => |a - med|)) with
      | none => false
      | some mad =>
        if mad = 0 then false
        else
          match r.amount with
          | none => false
          | some a => decide (|(a - med) / mad| ≥ th)

/-- MADSpike pass.  (Pandas iterates group by group; only the multiset of
emitted records matters to the final timestamp sort, so the rows are
traversed in frame order here.) -/
def madSpikePass (th : ℚ) (df : List LedgerRow) : List AnomalyRecord :=
  (df.filter (madMask th df)).map (fun r => mkAnomaly r "MADSpike" "MAD z-score above threshold")

/-- DuplicateTxId mask, the model of
`df.duplicated(subset=["userId", "id"], keep=False)`: at least two rows of
the frame share the row's `(userId, id)`. -/
def dupIdMask (rows : List LedgerRow) (r : LedgerRow) : Bool :=
  2 ≤ (rows.filter (fun x => x.userId == r.userId && x.id == r.id)).length

/-- DuplicateTxId pass. -/
def dupIdPass (df : List LedgerRow) : List AnomalyRecord :=
  (df.filter (dupIdMask df)).map
    (fun r => mkAnomaly r "DuplicateTxId" "Duplicate transaction id for user")

/-- A field is blank when it is missing or all-whitespace
(`isna | astype(str).str.strip() == ""`). -/
def isBlank (v : Option String) : Bool :=
  match v with
  | none => true
  | some s => trimWS s == ""

/-- MissingField pass: one record per blank field among `type`, `source`,
`action`, iterating fields in that order as the code does. -/
def missingFieldPass (df : List LedgerRow) : List AnomalyRecord :=
  ((df.filter (fun r => isBlank r.type)).map
      (fun r => mkAnomaly r "MissingField" "type is blank")) ++
  ((df.filter (fun r => isBlank r.source)).map
      (fun r => mkAnomaly r "MissingField" "source is blank")) ++
  ((df.filter (fun r => isBlank r.action)).map
      (fun r => mkAnomaly r "MissingField" "action is blank"))

/-- Grouping key of the RapidManualDeduction pass; `none` when `type` or
`amount` is missing (such rows are dropped from the `groupby`). -/
def rapidKey (r : LedgerRow) : Option (String × String × ℚ) :=
  match r.type, r.amount with
  | some t, some a => some (r.userId, t, a)
  | _, _ => none

/-- RapidManualDeduction mask given the row and its
`groupby(["userId", "type", "amount"])["timestamp"].shift(1)` value. -/
def rapidMask (win : ℚ) (r : LedgerRow) (prev : Option ℚ) : Bool :=
  r.type == some "DEBIT" &&
    (match r.source with
     | some s => containsCI s "MANUAL"
     | none => false) &&
    (match prev, r.timestamp with
     | some p, some t => decide (t - p ≤ win)
     | _, _ => false)

/-- RapidManualDeduction pass. -/
def rapidPass (win : ℚ) (df : List LedgerRow) : List AnomalyRecord :=
  ((withPrev rapidKey (fun r => r.timestamp) df []).filter
      (fun p => rapidMask win p.1 p.2)).map
    (fun p => mkAnomaly p.1 "RapidManualDeduction" "Repeated manual deduction within window")

/-- ContinuityBreak pass-through. -/
def continuityPass (df : List LedgerRow) : List AnomalyRecord :=
  (df.filter (fun r => r.continuityBreak)).map
    (fun r => mkAnomaly r "ContinuityBreak" "Old balance does not match previous new balance")

/-- BalanceMismatch pass-through. -/
def mismatchPass (df : List LedgerRow) : List AnomalyRecord :=
  (df.filter (fun r => r.balanceMismatch)).map
    (fun r => mkAnomaly r "BalanceMismatch" "Expected differs from actual")

/-- Burst mask given the row and its per-user previous timestamp: the gap
must be defined (both timestamps known) and under one second. -/
def burstMask (r : LedgerRow) (prev : Option ℚ) : Bool :=
  match r.timestamp, prev with
  | some t, some p => decide (t - p < 1)
  | _, _ => false

/-- Burst pass. -/
def burstPass (df : List LedgerRow) : List AnomalyRecord :=
  ((withPrev (fun r => some r.userId) (fun r => r.timestamp) df []).filter
      (fun p => burstMask p.1 p.2)).map
    (fun p => mkAnomaly p.1 "Burst" "Transactions within one second of each other")

/-- Number of distinct non-missing currencies of a user
(`groupby("userId")["currency"].nunique()`). -/
def userCurrencyCount (rows : List LedgerRow) (uid : String) : ℕ :=
  (((rows.filter (fun r => r.userId == uid)).filterMap (fun r => r.currency)).dedup).length

/-- CurrencyMismatch pass: flag every row of a user appearing with more than
one distinct currency. -/
def currencyPass (df : List LedgerRow) : List AnomalyRecord :=
  (df.filter (fun r => 2 ≤ userCurrencyCount df r.userId)).map
    (fun r => mkAnomaly r "CurrencyMismatch" "Multiple currencies detected for same user")

/-- Final-sort key: ascending timestamp, missing last; ties are left to the
sort and are implementation-defined. -/
def recTsLE (a b : AnomalyRecord) : Bool :=
  match a.timestamp, b.timestamp with
  | some x, some y => decide (x ≤ y)
  | some _, none => true
  | none, none => true
  | none, some _ => false

/-- The concatenation of all detector passes in source order over the sorted
frame. -/
def allPasses (cfg : AnomalyConfig) (tbl : LedgerTable) : List AnomalyRecord :=
  let df := sortRows tbl.rows
  invalidPass df ++ madSpikePass cfg.madThreshold df ++ dupIdPass df ++
    missingFieldPass df ++ rapidPass cfg.dupTimeWindow df ++
    (if tbl.hasContinuityBreak then continuityPass df else []) ++
    (if tbl.hasBalanceMismatch then mismatchPass df else []) ++
    burstPass df ++ currencyPass df

/-- The model of `detect_anomalies`: empty (or absent) input yields the empty
table; otherwise run every pass over the sorted frame and sort the collected
records by timestamp. -/
def detectAnomalies (cfg : AnomalyConfig) (tbl : LedgerTable) : List AnomalyRecord :=
  if tbl.rows.isEmpty then []
  else (allPasses cfg tbl).insertionSort (fun a b => recTsLE a b = true)

/-- The fixed column list of the anomaly table: both empty-input branches
return exactly these columns, and every emitted record dict has exactly
these keys. -/
def anomalyColumns : List String :=
  ["timestamp", "userId", "id", "type", "source", "action", "amount", "oldBalance",
   "newBalance", "anomalyType", "details"]

/-! ### Model of the binary64 coercion (`pd.to_numeric`)

`build_ledger` first runs `pd.to_numeric(tx[col], errors="coerce")` over the
monetary columns, which stores every value as an IEEE-754 binary64 float,
and only afterwards builds `Decimal(str(x))` from that float.  The value
actually entering the Decimal arithmetic is therefore determined by the
binary64 rounding of the input value.  `floatRound` models correctly-rounded
conversion of a (normal-range) rational value to binary64: normalise to
`m * 2 ^ e` with `1 ≤ m < 2`, round `m * 2 ^ 52` to the nearest integer with
ties to even, and scale back.  (Overflow to infinity and subnormal
underflow are outside the monetary ranges considered and not modelled.) -/

/-- Scale a positive rational into `[1, 2)` by halving/doubling, tracking the
binary exponent; the fuel always suffices because `log2` of a rational is
below both its numerator and denominator. -/
def scaleToNormal : ℕ → ℚ → ℤ → ℚ × ℤ
  | 0, q, e => (q, e)
  | fuel + 1, q, e =>
    if 2 ≤ q then scaleToNormal fuel (q / 2) (e + 1)
    else if q < 1 then scaleToNormal fuel (q * 2) (e - 1)
    else (q, e)

/-- Round a rational to the nearest integer, ties to even (the IEEE-754
default rounding used when parsing floats). -/
def roundHalfToEven (q : ℚ) : ℤ :=
  let f := qfloor q
  let r := q - (f : ℚ)
  if r < 1/2 then f
  else if 1/2 < r then f + 1
  else if f % 2 = 0 then f else f + 1

/-- Correctly-rounded conversion of a positive rational to binary64. -/
def floatRoundPos (q : ℚ) : ℚ :=
  let p := scaleToNormal (q.num.natAbs + q.den) q 0
  let rounded := roundHalfToEven (p.1 * 2 ^ (52:ℕ))
  if 0 ≤ p.2 then (rounded : ℚ) * 2 ^ p.2.toNat / 2 ^ (52:ℕ)
  else (rounded : ℚ) / (2 ^ p.2.natAbs * 2 ^ (52:ℕ))

/-- Correctly-rounded conversion of a rational to binary64 (sign-symmetric,
as IEEE-754 round-to-nearest is). -/
def floatRound (q : ℚ) : ℚ :=
  if q = 0 then 0
  else if q < 0 then -(floatRoundPos (-q))
  else floatRoundPos q

/-- Integer power of ten with an integer exponent, kept executable. -/
def qpow10 (s : ℤ) : ℚ :=
  if 0 ≤ s then (10:ℚ) ^ s.toNat else 1 / (10:ℚ) ^ s.natAbs

/-- Scale a positive rational into `[1, 10)` by decimal shifts, returning the
position of its leading decimal digit; the fuel always suffices because
`log10` of a rational is below both its numerator and denominator. -/
def decExpLoop : ℕ → ℚ → ℤ → ℤ
  | 0, _, e => e
  | fuel + 1, q, e =>
    if 10 ≤ q then decExpLoop fuel (q / 10) (e + 1)
    else if q < 1 then decExpLoop fuel (q * 10) (e - 1)
    else e

/-- The position `⌊log10 q⌋` of the leading decimal digit of a positive
rational. -/
def decExp (q : ℚ) : ℤ := decExpLoop (q.num.natAbs + q.den) q 0

/-- Round a positive rational to `k` significant decimal digits, ties to
even: the nearest decimal of that length, as CPython's shortest-repr digit
generation chooses it. -/
def roundSig (k : ℕ) (q : ℚ) : ℚ :=
  let s : ℤ := decExp q - ((k : ℤ) - 1)
  (roundHalfToEven (q / qpow10 s) : ℚ) * qpow10 s

/-- Search for the least number of significant digits whose nearest decimal
parses back (through `floatRound`) to the given binary64 value.  Seventeen
digits always round-trip a binary64 value, so the fuel `17` suffices and the
fallback is unreachable on actual float values. -/
def shortestFrom (f : ℚ) : ℕ → ℕ → ℚ
  | 0, _ => f
  | fuel + 1, k =>
    let c := roundSig k f
    if floatRound c = f then c else shortestFrom f fuel (k + 1)

/-- The decimal value of `str(x)` for a binary64 value: CPython prints the
shortest decimal string that round-trips to the float (sign-symmetric),
choosing the nearest decimal at that length. -/
def shortestRepr (f : ℚ) : ℚ :=
  if f = 0 then 0
  else if f < 0 then -(shortestFrom (-f) 17 1)
  else shortestFrom f 17 1

/-- The value-level effect on one monetary cell of
`pd.to_numeric(..., errors="coerce")` followed by `Decimal(str(x))`: the
cell is first rounded to binary64 (`floatRound`) and the Decimal then
denotes the value of the float's shortest round-tripping decimal
representation (`shortestRepr`). -/
def coerceNumeric (q : ℚ) : ℚ := shortestRepr (floatRound q)

/-! ### Specification-side descriptions of the `shift(1)` accumulators -/

/-- The `(key, value)` pairs a prefix of rows contributes to the `withPrev`
accumulator, in row order. -/
def entriesOf {α κ : Type} (key : α → Option κ) (val : α → Option ℚ)
    (pre : List α) : List (κ × Option ℚ) :=
  pre.filterMap (fun r => (key r).map (fun k => (k, val r)))

/-- The `withPrev` accumulator after processing a prefix of rows. -/
def seenPush {α κ : Type} (key : α → Option κ) (val : α → Option ℚ)
    (pre : List α) (seen : List (κ × Option ℚ)) : List (κ × Option ℚ) :=
  pre.foldl (fun acc r =>
    match key r with
    | none => acc
    | some k => (k, val r) :: acc) seen

/-- The filled new balance of a user's latest entry within a prefix of the
sorted ledger: the value `groupby("userId").shift(1)` hands to the
continuity check of the next entry of that user. -/
def prevFilledBefore (pre : List LedgerEntry) (uid : String) : Option ℚ :=
  (((pre.filter (fun r => r.event.userId == uid)).getLast?).map
    (fun r => r.newBalanceFilled)).join

/-- The timestamp of the latest entry with a given `(userId, type, amount)`
key within a prefix of the sorted frame: the value
`groupby(["userId", "type", "amount"])["timestamp"].shift(1)` hands to the
next entry of that group. -/
def prevGroupTs (pre : List LedgerRow) (k : String × String × ℚ) : Option ℚ :=
  (((pre.filter (fun x => rapidKey x == some k)).getLast?).map
    (fun r => r.timestamp)).join

/-! ### Sample inputs used by the witness theorems -/

/-- Default `build_ledger` configuration. -/
def sampleCfg : LedgerConfig := {}

/-- Default `detect_anomalies` configuration. -/
def sampleACfg : AnomalyConfig := {}

/-- The spec's worked example: unknown currency (2 dp), `CREDIT`,
`amount=100.00`, `vat=0`, `oldBalance=50.00`, reported `newBalance=150.01`. -/
def evCredit : Event :=
  { userId := "u1", id := "t1", messageId := "m1", eventType := "BALANCE_SYNC",
    type := some "CREDIT", source := some "PAYMENT", action := some "ADD",
    currency := none, timestamp := some 0,
    amount := some 100, vat := some 0, oldBalance := some 50,
    newBalance := some (15001/100), paymentBalance := none }

/-- A later event of the same user whose `oldBalance` does not continue the
previous filled new balance. -/
def evCredit2 : Event :=
  { userId := "u1", id := "t2", messageId := "m2", eventType := "BALANCE_SYNC",
    type := some "CREDIT", source := some "PAYMENT", action := some "ADD",
    currency := none, timestamp := some 10,
    amount := some 5, vat := some 0, oldBalance := some 7,
    newBalance := some 12, paymentBalance := none }

/-- Builder for the detector sample rows. -/
def mkSampleRow (uid i : String) (ty src act : Option String) (amt : Option ℚ)
    (ts : Option ℚ) (cur : Option String) : LedgerRow :=
  { timestamp := ts, userId := uid, id := i, type := ty, source := src,
    action := act, amount := amt, oldBalance := none, newBalance := none,
    currency := cur, expectedNewBalance := none }

/-- MADSpike sample: amounts 1, 2, 3, 4 and the outlier 1000 (median 3,
MAD 1, outlier score 997). -/
def madRows : List LedgerRow :=
  [mkSampleRow "u2" "a" (some "DEBIT") (some "AUTO") (some "SUB") (some 1) (some 0) (some "SAR"),
   mkSampleRow "u2" "b" (some "DEBIT") (some "AUTO") (some "SUB") (some 2) (some 10) (some "SAR"),
   mkSampleRow "u2" "c" (some "DEBIT") (some "AUTO") (some "SUB") (some 3) (some 20) (some "SAR"),
   mkSampleRow "u2" "d" (some "DEBIT") (some "AUTO") (some "SUB") (some 4) (some 30) (some "SAR"),
   mkSampleRow "u2" "e" (some "DEBIT") (some "AUTO") (some "SUB") (some 1000) (some 40) (some "SAR")]

/-- The outlier row of `madRows`. -/
def madOutlierRow : LedgerRow :=
  mkSampleRow "u2" "e" (some "DEBIT") (some "AUTO") (some "SUB") (some 1000) (some 40) (some "SAR")

/-- Rapid-manual-deduction sample: two manual `DEBIT` rows of amount 20,
30 seconds apart (the spec's example). -/
def rapidRows : List LedgerRow :=
  [mkSampleRow "u3" "a" (some "DEBIT") (some "MANUAL_ADJUST") (some "SUB") (some 20)
     (some 0) (some "SAR"),
   mkSampleRow "u3" "b" (some "DEBIT") (some "MANUAL_ADJUST") (some "SUB") (some 20)
     (some 30) (some "SAR")]

/-- The later entry of `rapidRows`. -/
def rapidLaterRow : LedgerRow :=
  mkSampleRow "u3" "b" (some "DEBIT") (some "MANUAL_ADJUST") (some "SUB") (some 20)
    (some 30) (some "SAR")

/-- Duplicate-transaction-id sample: two rows sharing `(userId, id)`. -/
def dupRows : List LedgerRow :=
  [mkSampleRow "u4" "x" (some "DEBIT") (some "AUTO") (some "SUB") (some 5) (some 0) (some "SAR"),
   mkSampleRow "u4" "x" (some "CREDIT") (some "AUTO") (some "ADD") (some 6) (some 99) (some "SAR")]

/-- A row with an invalid action and both pass-through flags set, used to
exercise the column-presence behaviour. -/
def invalidRow : LedgerRow :=
  { mkSampleRow "u5" "q" (some "DEBIT") (some "AUTO") (some "INVALID_DEDUCT") (some 5)
      (some 0) (some "SAR") with continuityBreak := true, balanceMismatch := true }

/-- Burst sample: two rows of one user half a second apart. -/
def burstRows : List LedgerRow :=
  [mkSampleRow "u6" "p" (some "DEBIT") (some "AUTO") (some "SUB") (some 5) (some 0) (some "SAR"),
   mkSampleRow "u6" "q" (some "DEBIT") (some "AUTO") (some "SUB") (some 6) (some (1/2))
     (some "SAR")]

/-- The later entry of `burstRows`. -/
def burstLaterRow : LedgerRow :=
  mkSampleRow "u6" "q" (some "DEBIT") (some "AUTO") (some "SUB") (some 6) (some (1/2))
    (some "SAR")

end CaloLogs


namespace CaloLogs

/-! ## Helper lemmas -/

theorem qfloor_eq_floor (q : ℚ) : qfloor q = ⌊q⌋ := by
  rw [Rat.floor_def, qfloor]
  exact Int.fdiv_eq_ediv _ (Int.natCast_nonneg _)

theorem withPrev_map_fst {α κ : Type} [BEq κ] (key : α → Option κ) (val : α → Option ℚ) :
    ∀ (l : List α) (seen : List (κ × Option ℚ)),
      (withPrev key val l seen).map Prod.fst = l
  | [], _ => rfl
  | r :: rest, seen => by
    cases h : key r <;>
      simp [withPrev, h, withPrev_map_fst key val rest]

theorem fst_mem_of_mem_withPrev {α κ : Type} [BEq κ] {key : α → Option κ}
    {val : α → Option ℚ} {l : List α} {seen : List (κ × Option ℚ)}
    {p : α × Option ℚ} (h : p ∈ withPrev key val l seen) : p.1 ∈ l := by
  have h1 : p.1 ∈ (withPrev key val l seen).map Prod.fst := List.mem_map_of_mem _ h
  rwa [withPrev_map_fst] at h1

theorem withPrev_get? {α κ : Type} [BEq κ] (key : α → Option κ) (val : α → Option ℚ) :
    ∀ (l : List α) (seen : List (κ × Option ℚ)) (i : ℕ) (r : α), l.get? i = some r →
      (withPrev key val l seen).get? i =
        some (r, match key r with
                 | none => none
                 | some k => ((seenPush key val (l.take i) seen).lookup k).join)
  | [], _, i, r, h => by simp at h
  | x :: rest, seen, 0, r, h => by
    obtain rfl : x = r := by simpa using h
    cases hk : key x <;> simp [withPrev, hk, seenPush]
  | x :: rest, seen, i + 1, r, h => by
    have h' : rest.get? i = some r := by simpa using h
    cases hk : key x <;>
      simpa [withPrev, hk, seenPush] using withPrev_get? key val rest _ i r h'

theorem seenPush_cons {α κ : Type} (key : α → Option κ) (val : α → Option ℚ)
    (r : α) (pre : List α) (seen : List (κ × Option ℚ)) :
    seenPush key val (r :: pre) seen =
      seenPush key val pre
        (match key r with
         | none => seen
         | some k => (k, val r) :: seen) := rfl

theorem seenPush_eq_entriesOf {α κ : Type} (key : α → Option κ) (val : α → Option ℚ) :
    ∀ (pre : List α) (seen : List (κ × Option ℚ)),
      seenPush key val pre seen = (entriesOf key val pre).reverse ++ seen
  | [], _ => rfl
  | r :: pre, seen => by
    rw [seenPush_cons]
    cases hk : key r with
    | none =>
      simpa [entriesOf, hk] using seenPush_eq_entriesOf key val pre seen
    | some k =>
      rw [seenPush_eq_entriesOf key val pre]
      simp [entriesOf, hk]

theorem some_beq_some {κ : Type} [BEq κ] (a b : κ) :
    ((some a == some b) : Bool) = (a == b) := rfl

theorem lookup_entriesOf_reverse {α κ : Type} [BEq κ] [LawfulBEq κ]
    (key : α → Option κ) (val : α → Option ℚ) (pre : List α) (k : κ) :
    ((entriesOf key val pre).reverse).lookup k =
      ((pre.filter (fun x => key x == some k)).getLast?).map val := by
  induction pre using List.reverseRecOn with
  | nil => rfl
  | append_singleton pre r ih =>
    rw [entriesOf, List.filterMap_append, List.reverse_append, List.filter_append]
    cases hk : key r with
    | none =>
      simp only [hk, Option.map_none, List.filterMap, List.reverse_nil, List.nil_append]
      simpa [hk] using ih
    | some k' =>
      by_cases hkk : k' = k
      · subst hkk
        simp [hk, List.lookup, List.getLast?_concat]
      · have h1 : ((key r == some k) : Bool) = false := by simp [hk, hkk]
        have h2 : ((k == k') : Bool) = false := by
          simp [beq_iff_eq]
          exact fun h => hkk h.symm
        simp only [hk, List.filterMap, Option.map_some]
        simpa [List.lookup, h1, h2] using ih

theorem seenPush_lookup {α κ : Type} [BEq κ] [LawfulBEq κ]
    (key : α → Option κ) (val : α → Option ℚ) (pre : List α) (k : κ) :
    (seenPush key val pre []).lookup k =
      ((pre.filter (fun x => key x == some k)).getLast?).map val := by
  rw [seenPush_eq_entriesOf, List.append_nil, lookup_entriesOf_reverse]

theorem mem_buildLedger {cfg : LedgerConfig} {events : List Event}
    {p : LedgerEntry × Bool} (h : p ∈ buildLedger cfg events) :
    ∃ e ∈ events, e.eventType = "BALANCE_SYNC" ∧ p.1 = computeRow cfg e := by
  unfold buildLedger at h
  obtain ⟨q, hq, hpq⟩ := List.mem_map.mp h
  have h1 : q.1 ∈ sortedLedgerRows cfg events := fst_mem_of_mem_withPrev hq
  have h2 : q.1 ∈ (events.filter (fun e => e.eventType == "BALANCE_SYNC")).map (computeRow cfg) :=
    (List.perm_insertionSort _ _).mem_iff.mp h1
  obtain ⟨e, he, heq⟩ := List.mem_map.mp h2
  have h3 := List.mem_filter.mp he
  refine ⟨e, h3.1, by simpa using h3.2, ?_⟩
  rw [← hpq]
  exact heq.symm

end CaloLogs

namespace CaloLogs

/-! ## C4: the numeric conversion is not an exact textual parse -/

/-- C4 (counterexample): the conversion of the monetary fields is not the
exact decimal value of the canonical text: the seventeen-significant-digit
value `1 + 10 ^ (-17)` passes through binary64 (`pd.to_numeric`) and comes
out as `1`, conflated with the value `1`; an exact decimal parse would keep
the two values distinct. -/
theorem numericCoercion_not_exact :
    coerceNumeric (1 + 1/(10:ℚ)^(17:ℕ)) ≠ 1 + 1/(10:ℚ)^(17:ℕ) ∧
    coerceNumeric (1 + 1/(10:ℚ)^(17:ℕ)) = coerceNumeric 1 := by
  constructor
  · decide
  · decide

/-- C4 (amended): the monetary fields are not parsed exactly from their
canonical text: `pd.to_numeric` first rounds each value to binary64, and
`Decimal(str(x))` then re-reads the float's shortest round-tripping decimal,
so the conversion depends only on the binary64 value — distinct texts
rounding to the same float are conflated — and a value survives exactly iff
it is the shortest decimal denoting its float: `0.1` and `0.015` are
preserved, while the full decimal expansion of the binary64 value
`1 + 2 ^ (-52)` is rewritten to `1.0000000000000002`. -/
theorem numericCoercion_float_determined :
    (∀ q1 q2 : ℚ, floatRound q1 = floatRound q2 → coerceNumeric q1 = coerceNumeric q2) ∧
    coerceNumeric (1/10) = 1/10 ∧
    coerceNumeric (15/1000) = 15/1000 ∧
    coerceNumeric (1 + 1/(2:ℚ)^(52:ℕ)) = 10000000000000002/(10:ℚ)^(16:ℕ) ∧
    coerceNumeric (1 + 1/(2:ℚ)^(52:ℕ)) ≠ 1 + 1/(2:ℚ)^(52:ℕ) := by
  refine ⟨?_, by decide, by decide, by decide, by decide⟩
  intro q1 q2 h
  unfold coerceNumeric
  rw [h]

/-- Witness for the amended C4 theorem: the counterexample's conflation
instance derived from the general float-determination fact. -/
theorem numericCoercion_float_determined_witness :
    coerceNumeric (1 + 1/(10:ℚ)^(17:ℕ)) = coerceNumeric 1 :=
  numericCoercion_float_determined.1 (1 + 1/(10:ℚ)^(17:ℕ)) 1 (by decide)

/-! ## C5: empty input -/

/-- C5 (counterexample): on an empty event list `build_ledger` returns
`pd.DataFrame([])`, a frame with no columns at all, so the ledger side of
the claim fails: the defined output column `expectedNewBalance` is absent. -/
theorem emptyLedger_missing_columns :
    ¬ ("expectedNewBalance" ∈ ledgerColumns ([] : List Event)) := by
  decide

/-- C5 (amended): running both components on an empty event list raises no
error and yields an empty ledger — as a frame with no columns, not the
documented ledger schema — and an empty anomaly table, whose schema is the
fixed eleven anomaly columns. -/
theorem emptyInput_empty_outputs (cfg : LedgerConfig) (acfg : AnomalyConfig)
    (hasCB hasBM : Bool) :
    buildLedger cfg [] = [] ∧ ledgerColumns [] = [] ∧
      detectAnomalies acfg ⟨[], hasCB, hasBM⟩ = [] ∧ anomalyColumns.length = 11 :=
  ⟨rfl, rfl, rfl, rfl⟩

end CaloLogs

namespace CaloLogs

/-! ## C1: expected balance formula -/

theorem computeRow_expected_credit (cfg : LedgerConfig) (e : Event)
    (h : typeUpper e = "CREDIT") :
    (computeRow cfg e).expectedNewBalance =
      some (quantize (getDecimals cfg e.currency)
        (e.oldBalance.getD 0 + e.amount.getD 0 - e.vat.getD 0)) := by
  simp [computeRow, h, add_sub_assoc]

theorem computeRow_expected_debit (cfg : LedgerConfig) (e : Event)
    (h : typeUpper e = "DEBIT") :
    (computeRow cfg e).expectedNewBalance =
      some (quantize (getDecimals cfg e.currency)
        (e.oldBalance.getD 0 - (e.amount.getD 0 - e.vat.getD 0))) := by
  simp [computeRow, h]

theorem computeRow_expected_other (cfg : LedgerConfig) (e : Event)
    (h1 : typeUpper e ≠ "CREDIT") (h2 : typeUpper e ≠ "DEBIT") :
    (computeRow cfg e).expectedNewBalance = none := by
  simp [computeRow, h1, h2]

/-- C1: every entry built by `build_ledger` satisfies the expected-balance
formula: for `CREDIT` rows `expectedNewBalance` is the old balance plus
amount minus vat, rounded half-away-from-zero to `dps(currency)` places;
for `DEBIT` rows it is the old balance minus `(amount − vat)`, likewise
rounded; for any other type it is unknown.  Missing `amount`, `vat` or
`oldBalance` enter this arithmetic as zero (`Option.getD 0`) only. -/
theorem expectedNewBalance_formula (cfg : LedgerConfig) (events : List Event)
    (p : LedgerEntry × Bool) (hp : p ∈ buildLedger cfg events) :
    ∃ e ∈ events, p.1 = computeRow cfg e ∧
      (typeUpper e = "CREDIT" →
        p.1.expectedNewBalance =
          some (quantize (getDecimals cfg e.currency)
            (e.oldBalance.getD 0 + e.amount.getD 0 - e.vat.getD 0))) ∧
      (typeUpper e = "DEBIT" →
        p.1.expectedNewBalance =
          some (quantize (getDecimals cfg e.currency)
            (e.oldBalance.getD 0 - (e.amount.getD 0 - e.vat.getD 0)))) ∧
      (typeUpper e ≠ "CREDIT" → typeUpper e ≠ "DEBIT" →
        p.1.expectedNewBalance = none) := by
  obtain ⟨e, he, _, heq⟩ := mem_buildLedger hp
  refine ⟨e, he, heq, ?_, ?_, ?_⟩
  · intro h; rw [heq]; exact computeRow_expected_credit cfg e h
  · intro h; rw [heq]; exact computeRow_expected_debit cfg e h
  · intro h1 h2; rw [heq]; exact computeRow_expected_other cfg e h1 h2

/-- Witness for C1 at the spec's worked `CREDIT` example. -/
theorem expectedNewBalance_formula_witness :
    ∃ e ∈ [evCredit], (computeRow sampleCfg evCredit, false).1 = computeRow sampleCfg e ∧
      (typeUpper e = "CREDIT" →
        (computeRow sampleCfg evCredit, false).1.expectedNewBalance =
          some (quantize (getDecimals sampleCfg e.currency)
            (e.oldBalance.getD 0 + e.amount.getD 0 - e.vat.getD 0))) ∧
      (typeUpper e = "DEBIT" →
        (computeRow sampleCfg evCredit, false).1.expectedNewBalance =
          some (quantize (getDecimals sampleCfg e.currency)
            (e.oldBalance.getD 0 - (e.amount.getD 0 - e.vat.getD 0)))) ∧
      (typeUpper e ≠ "CREDIT" → typeUpper e ≠ "DEBIT" →
        (computeRow sampleCfg evCredit, false).1.expectedNewBalance = none) :=
  expectedNewBalance_formula sampleCfg [evCredit]
    (computeRow sampleCfg evCredit, false) (by decide)

/-! ## C2: balance mismatch -/

theorem option2_match_iff (tol : ℚ) (E N : Option ℚ) :
    ((match E, N with
      | some a, some b => decide (|a - b| > tol)
      | _, _ => false) = true) ↔
      ∃ x y, E = some x ∧ N = some y ∧ |x - y| > tol := by
  cases E <;> cases N <;> simp

theorem computeRow_mismatch_iff (cfg : LedgerConfig) (e : Event) :
    ((computeRow cfg e).balanceMismatch = true ↔
      ∃ x y, (computeRow cfg e).expectedNewBalance = some x ∧
        (computeRow cfg e).newBalanceQ = some y ∧ |x - y| > cfg.tolerance) := by
  exact option2_match_iff cfg.tolerance _ _

/-- C2: for every entry built by `build_ledger`, `balanceMismatch` holds iff
the rounded expected balance and the rounded reported new balance are both
known and their absolute difference strictly exceeds the tolerance; a
difference of exactly the tolerance, or an unknown value on either side,
is not a mismatch. -/
theorem balanceMismatch_spec (cfg : LedgerConfig) (events : List Event)
    (p : LedgerEntry × Bool) (hp : p ∈ buildLedger cfg events) :
    ∃ e ∈ events, p.1 = computeRow cfg e ∧
      p.1.newBalanceQ = e.newBalance.map (quantize (getDecimals cfg e.currency)) ∧
      (p.1.balanceMismatch = true ↔
        ∃ x y, p.1.expectedNewBalance = some x ∧ p.1.newBalanceQ = some y ∧
          |x - y| > cfg.tolerance) := by
  obtain ⟨e, he, _, heq⟩ := mem_buildLedger hp
  refine ⟨e, he, heq, ?_, ?_⟩
  · rw [heq]; rfl
  · rw [heq]; exact computeRow_mismatch_iff cfg e

/-- Witness for C2 at the spec's worked example (`expected = 150.00`,
reported `150.01`, tolerance `0.005`). -/
theorem balanceMismatch_spec_witness :
    ∃ e ∈ [evCredit], (computeRow sampleCfg evCredit, false).1 = computeRow sampleCfg e ∧
      (computeRow sampleCfg evCredit, false).1.newBalanceQ =
        e.newBalance.map (quantize (getDecimals sampleCfg e.currency)) ∧
      ((computeRow sampleCfg evCredit, false).1.balanceMismatch = true ↔
        ∃ x y, (computeRow sampleCfg evCredit, false).1.expectedNewBalance = some x ∧
          (computeRow sampleCfg evCredit, false).1.newBalanceQ = some y ∧
          |x - y| > sampleCfg.tolerance) :=
  balanceMismatch_spec sampleCfg [evCredit] (computeRow sampleCfg evCredit, false) (by decide)

end CaloLogs

namespace CaloLogs

/-! ## C3: continuity breaks -/

theorem contBreak_iff (tol : ℚ) (o pv : Option ℚ) :
    (contBreak tol o pv = true ↔
      ∃ ob pr, o = some ob ∧ pv = some pr ∧ |ob - pr| > tol) := by
  cases o <;> cases pv <;> simp [contBreak]

theorem contBreak_none (tol : ℚ) (o : Option ℚ) : contBreak tol o none = false := by
  cases o <;> rfl

theorem buildLedger_get? (cfg : LedgerConfig) (events : List Event) (i : ℕ)
    (p : LedgerEntry × Bool) (hp : (buildLedger cfg events).get? i = some p) :
    ∃ r, (sortedLedgerRows cfg events).get? i = some r ∧
      p = (r, contBreak cfg.tolerance r.oldBalanceQ
             (prevFilledBefore ((sortedLedgerRows cfg events).take i) r.event.userId)) := by
  unfold buildLedger at hp
  rw [List.get?_map] at hp
  obtain ⟨q, hq, hgq⟩ := Option.map_eq_some'.mp hp
  have hfst : (sortedLedgerRows cfg events).get? i = some q.1 := by
    conv_lhs =>
      rw [← withPrev_map_fst (fun r : LedgerEntry => some r.event.userId)
        (fun r => r.newBalanceFilled) (sortedLedgerRows cfg events) []]
    rw [List.get?_map, hq]
    rfl
  have hw := withPrev_get? (fun r : LedgerEntry => some r.event.userId)
    (fun r => r.newBalanceFilled) (sortedLedgerRows cfg events) [] i q.1 hfst
  rw [hq] at hw
  have hq2 : q.2 =
      ((seenPush (fun r : LedgerEntry => some r.event.userId)
          (fun r => r.newBalanceFilled) ((sortedLedgerRows cfg events).take i) []).lookup
        q.1.event.userId).join := by
    have := Option.some.inj hw
    exact congrArg Prod.snd this
  refine ⟨q.1, hfst, ?_⟩
  rw [← hgq]
  have hpf : prevFilledBefore ((sortedLedgerRows cfg events).take i) q.1.event.userId =
      ((seenPush (fun r : LedgerEntry => some r.event.userId)
          (fun r => r.newBalanceFilled) ((sortedLedgerRows cfg events).take i) []).lookup
        q.1.event.userId).join := by
    rw [seenPush_lookup]
    unfold prevFilledBefore
    congr 1
  rw [hpf, ← hq2]

/-- C3: in the sorted ledger, an entry's `continuityBreak` flag is true
exactly when its (rounded) old balance and the filled new balance of the
same user's latest earlier entry (actual if known, else expected) are both
known and differ by more than the tolerance; in particular it is false for
the first entry of every user and whenever either side is unknown. -/
theorem continuityBreak_spec (cfg : LedgerConfig) (events : List Event) (i : ℕ)
    (p : LedgerEntry × Bool) (hp : (buildLedger cfg events).get? i = some p) :
    (p.2 = true ↔
      ∃ ob prev, p.1.oldBalanceQ = some ob ∧
        prevFilledBefore ((sortedLedgerRows cfg events).take i) p.1.event.userId = some prev ∧
        |ob - prev| > cfg.tolerance) ∧
    (((sortedLedgerRows cfg events).take i).filter
        (fun r => r.event.userId == p.1.event.userId) = [] → p.2 = false) := by
  obtain ⟨r, hr, rfl⟩ := buildLedger_get? cfg events i p hp
  constructor
  · exact contBreak_iff cfg.tolerance _ _
  · intro hfil
    have : prevFilledBefore ((sortedLedgerRows cfg events).take i) r.event.userId = none := by
      unfold prevFilledBefore
      rw [hfil]
      rfl
    simp only [this, contBreak_none]

/-- Witness for C3: `evCredit2` (old balance 7) follows `evCredit` (filled
new balance 150.01) for user `u1`, so its flag is set. -/
theorem continuityBreak_spec_witness :
    (((computeRow sampleCfg evCredit2, true) : LedgerEntry × Bool).2 = true ↔
      ∃ ob prev, (computeRow sampleCfg evCredit2, true).1.oldBalanceQ = some ob ∧
        prevFilledBefore ((sortedLedgerRows sampleCfg [evCredit, evCredit2]).take 1)
          (computeRow sampleCfg evCredit2, true).1.event.userId = some prev ∧
        |ob - prev| > sampleCfg.tolerance) ∧
    (((sortedLedgerRows sampleCfg [evCredit, evCredit2]).take 1).filter
        (fun r => r.event.userId == (computeRow sampleCfg evCredit2, true).1.event.userId) =
          [] → (computeRow sampleCfg evCredit2, true).2 = false) :=
  continuityBreak_spec sampleCfg [evCredit, evCredit2] 1
    (computeRow sampleCfg evCredit2, true) (by decide)

end CaloLogs

namespace CaloLogs

/-! ## Detector output membership machinery -/

theorem anomalyType_mkAnomaly (r : LedgerRow) (k d : String) :
    (mkAnomaly r k d).anomalyType = k := rfl

theorem mem_detectAnomalies_iff (cfg : AnomalyConfig) (tbl : LedgerTable)
    (rec : AnomalyRecord) :
    rec ∈ detectAnomalies cfg tbl ↔ rec ∈ allPasses cfg tbl := by
  unfold detectAnomalies
  by_cases h : tbl.rows.isEmpty
  · rw [if_pos h]
    have hrows : tbl.rows = [] := List.isEmpty_iff.mp h
    simp [allPasses, sortRows, hrows, invalidPass, madSpikePass, dupIdPass,
      missingFieldPass, rapidPass, continuityPass, mismatchPass, burstPass,
      currencyPass, withPrev]
  · rw [if_neg h]
    exact (List.perm_insertionSort _ _).mem_iff

theorem anomalyType_of_mem_map {β : Type} {L : List β} {f : β → LedgerRow}
    {k d : String} {rec : AnomalyRecord}
    (h : rec ∈ L.map (fun x => mkAnomaly (f x) k d)) : rec.anomalyType = k := by
  obtain ⟨x, _, rfl⟩ := List.mem_map.mp h
  rfl

theorem anomalyType_of_mem_invalidPass {df : List LedgerRow} {rec : AnomalyRecord}
    (h : rec ∈ invalidPass df) : rec.anomalyType = "InvalidAction" :=
  anomalyType_of_mem_map (f := fun r => r) h

theorem anomalyType_of_mem_madSpikePass {th : ℚ} {df : List LedgerRow} {rec : AnomalyRecord}
    (h : rec ∈ madSpikePass th df) : rec.anomalyType = "MADSpike" :=
  anomalyType_of_mem_map (f := fun r => r) h

theorem anomalyType_of_mem_dupIdPass {df : List LedgerRow} {rec : AnomalyRecord}
    (h : rec ∈ dupIdPass df) : rec.anomalyType = "DuplicateTxId" :=
  anomalyType_of_mem_map (f := fun r => r) h

theorem anomalyType_of_mem_missingFieldPass {df : List LedgerRow} {rec : AnomalyRecord}
    (h : rec ∈ missingFieldPass df) : rec.anomalyType = "MissingField" := by
  unfold missingFieldPass at h
  rcases List.mem_append.mp h with h' | h'
  · rcases List.mem_append.mp h' with h'' | h''
    · exact anomalyType_of_mem_map (f := fun r => r) h''
    · exact anomalyType_of_mem_map (f := fun r => r) h''
  · exact anomalyType_of_mem_map (f := fun r => r) h'

theorem anomalyType_of_mem_rapidPass {win : ℚ} {df : List LedgerRow} {rec : AnomalyRecord}
    (h : rec ∈ rapidPass win df) : rec.anomalyType = "RapidManualDeduction" :=
  anomalyType_of_mem_map (f := Prod.fst) h

theorem anomalyType_of_mem_continuityPass {df : List LedgerRow} {rec : AnomalyRecord}
    (h : rec ∈ continuityPass df) : rec.anomalyType = "ContinuityBreak" :=
  anomalyType_of_mem_map (f := fun r => r) h

theorem anomalyType_of_mem_mismatchPass {df : List LedgerRow} {rec : AnomalyRecord}
    (h : rec ∈ mismatchPass df) : rec.anomalyType = "BalanceMismatch" :=
  anomalyType_of_mem_map (f := fun r => r) h

theorem anomalyType_of_mem_burstPass {df : List LedgerRow} {rec : AnomalyRecord}
    (h : rec ∈ burstPass df) : rec.anomalyType = "Burst" :=
  anomalyType_of_mem_map (f := Prod.fst) h

theorem anomalyType_of_mem_currencyPass {df : List LedgerRow} {rec : AnomalyRecord}
    (h : rec ∈ currencyPass df) : rec.anomalyType = "CurrencyMismatch" :=
  anomalyType_of_mem_map (f := fun r => r) h

theorem anomalyType_of_mem_iteCont {df : List LedgerRow} {b : Bool} {rec : AnomalyRecord}
    (h : rec ∈ (if b then continuityPass df else [])) :
    rec.anomalyType = "ContinuityBreak" := by
  cases b with
  | true => exact anomalyType_of_mem_continuityPass (by simpa using h)
  | false => simp at h

theorem anomalyType_of_mem_iteMis {df : List LedgerRow} {b : Bool} {rec : AnomalyRecord}
    (h : rec ∈ (if b then mismatchPass df else [])) :
    rec.anomalyType = "BalanceMismatch" := by
  cases b with
  | true => exact anomalyType_of_mem_mismatchPass (by simpa using h)
  | false => simp at h

theorem mem_allPasses_elim (cfg : AnomalyConfig) (tbl : LedgerTable)
    (rec : AnomalyRecord) (h : rec ∈ allPasses cfg tbl) :
    rec ∈ invalidPass (sortRows tbl.rows) ∨
    rec ∈ madSpikePass cfg.madThreshold (sortRows tbl.rows) ∨
    rec ∈ dupIdPass (sortRows tbl.rows) ∨
    rec ∈ missingFieldPass (sortRows tbl.rows) ∨
    rec ∈ rapidPass cfg.dupTimeWindow (sortRows tbl.rows) ∨
    rec ∈ (if tbl.hasContinuityBreak then continuityPass (sortRows tbl.rows) else []) ∨
    rec ∈ (if tbl.hasBalanceMismatch then mismatchPass (sortRows tbl.rows) else []) ∨
    rec ∈ burstPass (sortRows tbl.rows) ∨
    rec ∈ currencyPass (sortRows tbl.rows) := by
  simpa [allPasses, List.mem_append, or_assoc] using h

theorem mem_allPasses_intro (cfg : AnomalyConfig) (tbl : LedgerTable)
    (rec : AnomalyRecord)
    (h : rec ∈ invalidPass (sortRows tbl.rows) ∨
      rec ∈ madSpikePass cfg.madThreshold (sortRows tbl.rows) ∨
      rec ∈ dupIdPass (sortRows tbl.rows) ∨
      rec ∈ missingFieldPass (sortRows tbl.rows) ∨
      rec ∈ rapidPass cfg.dupTimeWindow (sortRows tbl.rows) ∨
      rec ∈ (if tbl.hasContinuityBreak then continuityPass (sortRows tbl.rows) else []) ∨
      rec ∈ (if tbl.hasBalanceMismatch then mismatchPass (sortRows tbl.rows) else []) ∨
      rec ∈ burstPass (sortRows tbl.rows) ∨
      rec ∈ currencyPass (sortRows tbl.rows)) :
    rec ∈ allPasses cfg tbl := by
  simpa [allPasses, List.mem_append, or_assoc] using h

end CaloLogs

namespace CaloLogs

/-! ## C6: MAD spikes -/

theorem madMask_iff (th : ℚ) (rows : List LedgerRow) (r : LedgerRow) :
    (madMask th rows r = true ↔
      ∃ ty med mad a, r.type = some ty ∧
        medianQ (groupAmounts rows r.userId ty) = some med ∧
        medianQ ((groupAmounts rows r.userId ty).map (fun x => |x - med|)) = some mad ∧
        ¬ mad = 0 ∧ r.amount = some a ∧ |(a - med) / mad| ≥ th) := by
  unfold madMask
  cases ht : r.type with
  | none => simp
  | some ty =>
    cases hm : medianQ (groupAmounts rows r.userId ty) with
    | none => simp [hm]
    | some med =>
      cases hd : medianQ ((groupAmounts rows r.userId ty).map (fun x => |x - med|)) with
      | none => simp [hm, hd]
      | some mad =>
        by_cases hz : mad = 0
        · simp [hm, hd, hz]
        · cases ha : r.amount with
          | none => simp [hm, hd, hz, ha]
          | some a => simp [hm, hd, hz, ha]

/-- C6: MADSpike records in the detector output are exactly the rows whose
`(userId, type)` group has a defined, nonzero MAD of `amount` and whose
modified z-score `|amount − median| / MAD` reaches the threshold; a group
with zero or undefined MAD is skipped and contributes no record. -/
theorem madSpike_spec (cfg : AnomalyConfig) (tbl : LedgerTable) :
    (∀ rec, rec ∈ detectAnomalies cfg tbl → rec.anomalyType = "MADSpike" →
      ∃ r, r ∈ sortRows tbl.rows ∧
        rec = mkAnomaly r "MADSpike" "MAD z-score above threshold" ∧
        madMask cfg.madThreshold (sortRows tbl.rows) r = true) ∧
    (∀ r, r ∈ sortRows tbl.rows → madMask cfg.madThreshold (sortRows tbl.rows) r = true →
      mkAnomaly r "MADSpike" "MAD z-score above threshold" ∈ detectAnomalies cfg tbl) ∧
    (∀ rows r, madMask cfg.madThreshold rows r = true ↔
      ∃ ty med mad a, r.type = some ty ∧
        medianQ (groupAmounts rows r.userId ty) = some med ∧
        medianQ ((groupAmounts rows r.userId ty).map (fun x => |x - med|)) = some mad ∧
        ¬ mad = 0 ∧ r.amount = some a ∧ |(a - med) / mad| ≥ cfg.madThreshold) := by
  refine ⟨?_, ?_, ?_⟩
  · intro rec hrec ht
    have h := mem_allPasses_elim cfg tbl rec ((mem_detectAnomalies_iff cfg tbl rec).mp hrec)
    rcases h with h | h | h | h | h | h | h | h | h
    · exact absurd (anomalyType_of_mem_invalidPass h ▸ ht) (by intro hh; simp at hh)
    · obtain ⟨r, hr, rfl⟩ := List.mem_map.mp h
      exact ⟨r, (List.mem_filter.mp hr).1, rfl, (List.mem_filter.mp hr).2⟩
    · exact absurd (anomalyType_of_mem_dupIdPass h ▸ ht) (by intro hh; simp at hh)
    · exact absurd (anomalyType_of_mem_missingFieldPass h ▸ ht) (by intro hh; simp at hh)
    · exact absurd (anomalyType_of_mem_rapidPass h ▸ ht) (by intro hh; simp at hh)
    · exact absurd (anomalyType_of_mem_iteCont h ▸ ht) (by intro hh; simp at hh)
    · exact absurd (anomalyType_of_mem_iteMis h ▸ ht) (by intro hh; simp at hh)
    · exact absurd (anomalyType_of_mem_burstPass h ▸ ht) (by intro hh; simp at hh)
    · exact absurd (anomalyType_of_mem_currencyPass h ▸ ht) (by intro hh; simp at hh)
  · intro r hr hm
    refine (mem_detectAnomalies_iff cfg tbl _).mpr (mem_allPasses_intro cfg tbl _ ?_)
    refine .inr (.inl ?_)
    exact List.mem_map_of_mem _ (List.mem_filter.mpr ⟨hr, hm⟩)
  · intro rows r
    exact madMask_iff cfg.madThreshold rows r

/-- Witness for C6: in `madRows` (amounts 1, 2, 3, 4, 1000 for user `u2`)
the outlier row is reported as a MADSpike. -/
theorem madSpike_spec_witness :
    mkAnomaly madOutlierRow "MADSpike" "MAD z-score above threshold" ∈
      detectAnomalies sampleACfg { rows := madRows } :=
  (madSpike_spec sampleACfg { rows := madRows }).2.1 madOutlierRow (by decide) (by decide)

end CaloLogs

namespace CaloLogs

/-! ## C7: duplicate transaction ids -/

theorem two_le_length_filter {α : Type} (p : α → Bool) :
    ∀ (l : List α) (i j : ℕ) (a b : α), l.get? i = some a → l.get? j = some b →
      i ≠ j → p a = true → p b = true → 2 ≤ (l.filter p).length
  | [], i, j, a, b, hi, _, _, _, _ => by simp at hi
  | x :: t, 0, 0, a, b, hi, hj, hij, hpa, hpb => absurd rfl hij
  | x :: t, 0, j + 1, a, b, hi, hj, hij, hpa, hpb => by
    obtain rfl : x = a := by simpa using hi
    have hb : b ∈ t := List.get?_mem (by simpa using hj)
    have hbf : b ∈ t.filter p := List.mem_filter.mpr ⟨hb, hpb⟩
    have h1 : 0 < (t.filter p).length := List.length_pos.mpr (List.ne_nil_of_mem hbf)
    rw [List.filter_cons_of_pos hpa]
    simp only [List.length_cons]
    omega
  | x :: t, i + 1, 0, a, b, hi, hj, hij, hpa, hpb => by
    obtain rfl : x = b := by simpa using hj
    have ha : a ∈ t := List.get?_mem (by simpa using hi)
    have haf : a ∈ t.filter p := List.mem_filter.mpr ⟨ha, hpa⟩
    have h1 : 0 < (t.filter p).length := List.length_pos.mpr (List.ne_nil_of_mem haf)
    rw [List.filter_cons_of_pos hpb]
    simp only [List.length_cons]
    omega
  | x :: t, i + 1, j + 1, a, b, hi, hj, hij, hpa, hpb => by
    have hij' : i ≠ j := by omega
    have h1 := two_le_length_filter p t i j a b (by simpa using hi) (by simpa using hj)
      hij' hpa hpb
    cases hx : p x with
    | true =>
      rw [List.filter_cons_of_pos hx]
      simp only [List.length_cons]
      omega
    | false =>
      rw [List.filter_cons_of_neg (by simp [hx])]
      exact h1

/-- C7: any two distinct positions of the sorted frame sharing the same
`(userId, id)` pair are both reported as `DuplicateTxId` — every occurrence
is flagged, not only the extras beyond the first. -/
theorem duplicateTxId_flags_all (cfg : AnomalyConfig) (tbl : LedgerTable)
    (i j : ℕ) (ri rj : LedgerRow)
    (hi : (sortRows tbl.rows).get? i = some ri)
    (hj : (sortRows tbl.rows).get? j = some rj)
    (hij : i ≠ j) (hu : ri.userId = rj.userId) (hid : ri.id = rj.id) :
    mkAnomaly ri "DuplicateTxId" "Duplicate transaction id for user" ∈
      detectAnomalies cfg tbl ∧
    mkAnomaly rj "DuplicateTxId" "Duplicate transaction id for user" ∈
      detectAnomalies cfg tbl := by
  have hpi : (fun x : LedgerRow => x.userId == ri.userId && x.id == ri.id) ri = true := by
    simp
  have hpj : (fun x : LedgerRow => x.userId == ri.userId && x.id == ri.id) rj = true := by
    show (rj.userId == ri.userId && rj.id == ri.id) = true
    rw [← hu, ← hid]
    simp
  have h2 : 2 ≤ ((sortRows tbl.rows).filter
      (fun x => x.userId == ri.userId && x.id == ri.id)).length :=
    two_le_length_filter _ (sortRows tbl.rows) i j ri rj hi hj hij hpi hpj
  have h2' : 2 ≤ ((sortRows tbl.rows).filter
      (fun x => x.userId == rj.userId && x.id == rj.id)).length := by
    rw [← hu, ← hid]
    exact h2
  have hmi : dupIdMask (sortRows tbl.rows) ri = true := by
    unfold dupIdMask
    exact decide_eq_true h2
  have hmj : dupIdMask (sortRows tbl.rows) rj = true := by
    unfold dupIdMask
    exact decide_eq_true h2'
  constructor
  · refine (mem_detectAnomalies_iff cfg tbl _).mpr (mem_allPasses_intro cfg tbl _ ?_)
    refine .inr (.inr (.inl ?_))
    exact List.mem_map_of_mem _ (List.mem_filter.mpr ⟨List.get?_mem hi, hmi⟩)
  · refine (mem_detectAnomalies_iff cfg tbl _).mpr (mem_allPasses_intro cfg tbl _ ?_)
    refine .inr (.inr (.inl ?_))
    exact List.mem_map_of_mem _ (List.mem_filter.mpr ⟨List.get?_mem hj, hmj⟩)

/-- Witness for C7: the two rows of `dupRows` share `(u4, x)` and both
appear in the output. -/
theorem duplicateTxId_flags_all_witness :
    mkAnomaly (mkSampleRow "u4" "x" (some "DEBIT") (some "AUTO") (some "SUB") (some 5)
        (some 0) (some "SAR")) "DuplicateTxId" "Duplicate transaction id for user" ∈
      detectAnomalies sampleACfg { rows := dupRows } ∧
    mkAnomaly (mkSampleRow "u4" "x" (some "CREDIT") (some "AUTO") (some "ADD") (some 6)
        (some 99) (some "SAR")) "DuplicateTxId" "Duplicate transaction id for user" ∈
      detectAnomalies sampleACfg { rows := dupRows } :=
  duplicateTxId_flags_all sampleACfg { rows := dupRows } 0 1
    (mkSampleRow "u4" "x" (some "DEBIT") (some "AUTO") (some "SUB") (some 5)
      (some 0) (some "SAR"))
    (mkSampleRow "u4" "x" (some "CREDIT") (some "AUTO") (some "ADD") (some 6)
      (some 99) (some "SAR"))
    (by decide) (by decide) (by decide) (by decide) (by decide)

end CaloLogs

namespace CaloLogs

/-! ## C8: rapid manual deductions -/

theorem rapid_prev_spec (df : List LedgerRow) (i : ℕ) (pr : LedgerRow × Option ℚ)
    (h : (withPrev rapidKey (fun r => r.timestamp) df []).get? i = some pr) :
    (df.get? i = some pr.1) ∧
    pr.2 = (match rapidKey pr.1 with
            | none => none
            | some k => prevGroupTs (df.take i) k) := by
  have hfst : df.get? i = some pr.1 := by
    conv_lhs => rw [← withPrev_map_fst rapidKey (fun r => r.timestamp) df []]
    rw [List.get?_map, h]
    rfl
  have hw := withPrev_get? rapidKey (fun r => r.timestamp) df [] i pr.1 hfst
  rw [h] at hw
  have h2 := congrArg Prod.snd (Option.some.inj hw)
  refine ⟨hfst, ?_⟩
  rw [h2]
  cases hk : rapidKey pr.1 with
  | none => rfl
  | some k =>
    simp only []
    rw [seenPush_lookup]
    rfl

theorem rapidMask_iff (win : ℚ) (r : LedgerRow) (prev : Option ℚ) :
    (rapidMask win r prev = true ↔
      r.type = some "DEBIT" ∧
      (∃ s, r.source = some s ∧ containsCI s "MANUAL" = true) ∧
      ∃ p t, prev = some p ∧ r.timestamp = some t ∧ t - p ≤ win) := by
  unfold rapidMask
  cases hs : r.source <;> cases hp : prev <;> cases htime : r.timestamp <;>
    simp [Bool.and_eq_true, beq_iff_eq, and_assoc]

/-- C8: a row of the sorted frame is flagged `RapidManualDeduction` exactly
when its type is `DEBIT`, its source contains `MANUAL` case-insensitively,
and the immediately preceding row of its `(userId, type, amount)` group has
a known timestamp at most `dupTimeWindowSeconds` earlier; the flag lands on
the later row.  Flagged rows appear in the detector output. -/
theorem rapidManualDeduction_spec (cfg : AnomalyConfig) (tbl : LedgerTable)
    (i : ℕ) (pr : LedgerRow × Option ℚ)
    (h : (withPrev rapidKey (fun r => r.timestamp) (sortRows tbl.rows) []).get? i = some pr) :
    (rapidMask cfg.dupTimeWindow pr.1 pr.2 = true ↔
      pr.1.type = some "DEBIT" ∧
      (∃ s, pr.1.source = some s ∧ containsCI s "MANUAL" = true) ∧
      ∃ a p t, pr.1.amount = some a ∧
        prevGroupTs ((sortRows tbl.rows).take i) (pr.1.userId, "DEBIT", a) = some p ∧
        pr.1.timestamp = some t ∧ t - p ≤ cfg.dupTimeWindow) ∧
    (rapidMask cfg.dupTimeWindow pr.1 pr.2 = true →
      mkAnomaly pr.1 "RapidManualDeduction" "Repeated manual deduction within window" ∈
        detectAnomalies cfg tbl) := by
  obtain ⟨hfst, hprev⟩ := rapid_prev_spec (sortRows tbl.rows) i pr h
  constructor
  · rw [rapidMask_iff]
    constructor
    · rintro ⟨hty, hsrc, p, t, hp, ht, hwin⟩
      refine ⟨hty, hsrc, ?_⟩
      cases ha : pr.1.amount with
      | none =>
        exfalso
        have hk : rapidKey pr.1 = none := by
          unfold rapidKey
          rw [ha]
          cases pr.1.type <;> rfl
        rw [hk] at hprev
        rw [hprev] at hp
        exact Option.noConfusion hp
      | some a =>
        have hk : rapidKey pr.1 = some (pr.1.userId, "DEBIT", a) := by
          unfold rapidKey
          rw [hty, ha]
        rw [hk] at hprev
        have hprev' : pr.2 =
            prevGroupTs ((sortRows tbl.rows).take i) (pr.1.userId, "DEBIT", a) := hprev
        refine ⟨a, p, t, rfl, ?_, ht, hwin⟩
        rw [← hprev']
        exact hp
    · rintro ⟨hty, hsrc, a, p, t, ha, hpg, ht, hwin⟩
      refine ⟨hty, hsrc, p, t, ?_, ht, hwin⟩
      have hk : rapidKey pr.1 = some (pr.1.userId, "DEBIT", a) := by
        unfold rapidKey
        rw [hty, ha]
      rw [hk] at hprev
      have hprev' : pr.2 =
          prevGroupTs ((sortRows tbl.rows).take i) (pr.1.userId, "DEBIT", a) := hprev
      rw [hprev']
      exact hpg
  · intro hm
    refine (mem_detectAnomalies_iff cfg tbl _).mpr (mem_allPasses_intro cfg tbl _ ?_)
    refine .inr (.inr (.inr (.inr (.inl ?_))))
    exact List.mem_map.mpr ⟨pr, List.mem_filter.mpr ⟨List.get?_mem h, hm⟩, rfl⟩

/-- Witness for C8 at the spec's example: two manual `DEBIT` rows of equal
amount 30 seconds apart; the later row is reported. -/
theorem rapidManualDeduction_spec_witness :
    mkAnomaly rapidLaterRow "RapidManualDeduction" "Repeated manual deduction within window" ∈
      detectAnomalies sampleACfg { rows := rapidRows } :=
  (rapidManualDeduction_spec sampleACfg { rows := rapidRows } 1 (rapidLaterRow, some 0)
    (by decide)).2 (by decide)

end CaloLogs

namespace CaloLogs

/-! ## C9: optional pass-through columns -/

/-- C9: when the frame lacks the `continuityBreak` (resp. `balanceMismatch`)
column, the corresponding pass-through pass is silently skipped — the output
contains no record of that type — while membership of every other kind of
record is unaffected by the two column-presence flags. -/
theorem passthroughColumns_optional (cfg : AnomalyConfig) (rows : List LedgerRow)
    (hasCB hasBM : Bool) (rec : AnomalyRecord) :
    (hasCB = false → rec ∈ detectAnomalies cfg ⟨rows, hasCB, hasBM⟩ →
      rec.anomalyType ≠ "ContinuityBreak") ∧
    (hasBM = false → rec ∈ detectAnomalies cfg ⟨rows, hasCB, hasBM⟩ →
      rec.anomalyType ≠ "BalanceMismatch") ∧
    (rec.anomalyType ≠ "ContinuityBreak" → rec.anomalyType ≠ "BalanceMismatch" →
      (rec ∈ detectAnomalies cfg ⟨rows, hasCB, hasBM⟩ ↔
        rec ∈ detectAnomalies cfg ⟨rows, true, true⟩)) := by
  refine ⟨?_, ?_, ?_⟩
  · intro hcb hmem hct
    subst hcb
    rcases mem_allPasses_elim _ _ _ ((mem_detectAnomalies_iff _ _ _).mp hmem) with
      h | h | h | h | h | h | h | h | h
    · exact absurd ((anomalyType_of_mem_invalidPass h).symm.trans hct) (by decide)
    · exact absurd ((anomalyType_of_mem_madSpikePass h).symm.trans hct) (by decide)
    · exact absurd ((anomalyType_of_mem_dupIdPass h).symm.trans hct) (by decide)
    · exact absurd ((anomalyType_of_mem_missingFieldPass h).symm.trans hct) (by decide)
    · exact absurd ((anomalyType_of_mem_rapidPass h).symm.trans hct) (by decide)
    · simp at h
    · exact absurd ((anomalyType_of_mem_iteMis h).symm.trans hct) (by decide)
    · exact absurd ((anomalyType_of_mem_burstPass h).symm.trans hct) (by decide)
    · exact absurd ((anomalyType_of_mem_currencyPass h).symm.trans hct) (by decide)
  · intro hbm hmem hct
    subst hbm
    rcases mem_allPasses_elim _ _ _ ((mem_detectAnomalies_iff _ _ _).mp hmem) with
      h | h | h | h | h | h | h | h | h
    · exact absurd ((anomalyType_of_mem_invalidPass h).symm.trans hct) (by decide)
    · exact absurd ((anomalyType_of_mem_madSpikePass h).symm.trans hct) (by decide)
    · exact absurd ((anomalyType_of_mem_dupIdPass h).symm.trans hct) (by decide)
    · exact absurd ((anomalyType_of_mem_missingFieldPass h).symm.trans hct) (by decide)
    · exact absurd ((anomalyType_of_mem_rapidPass h).symm.trans hct) (by decide)
    · exact absurd ((anomalyType_of_mem_iteCont h).symm.trans hct) (by decide)
    · simp at h
    · exact absurd ((anomalyType_of_mem_burstPass h).symm.trans hct) (by decide)
    · exact absurd ((anomalyType_of_mem_currencyPass h).symm.trans hct) (by decide)
  · intro hct hbm
    constructor
    · intro hmem
      refine (mem_detectAnomalies_iff _ _ _).mpr (mem_allPasses_intro _ _ _ ?_)
      rcases mem_allPasses_elim _ _ _ ((mem_detectAnomalies_iff _ _ _).mp hmem) with
        h | h | h | h | h | h | h | h | h
      · exact .inl h
      · exact .inr (.inl h)
      · exact .inr (.inr (.inl h))
      · exact .inr (.inr (.inr (.inl h)))
      · exact .inr (.inr (.inr (.inr (.inl h))))
      · exact absurd (anomalyType_of_mem_iteCont h) hct
      · exact absurd (anomalyType_of_mem_iteMis h) hbm
      · exact .inr (.inr (.inr (.inr (.inr (.inr (.inr (.inl h)))))))
      · exact .inr (.inr (.inr (.inr (.inr (.inr (.inr (.inr h)))))))
    · intro hmem
      refine (mem_detectAnomalies_iff _ _ _).mpr (mem_allPasses_intro _ _ _ ?_)
      rcases mem_allPasses_elim _ _ _ ((mem_detectAnomalies_iff _ _ _).mp hmem) with
        h | h | h | h | h | h | h | h | h
      · exact .inl h
      · exact .inr (.inl h)
      · exact .inr (.inr (.inl h))
      · exact .inr (.inr (.inr (.inl h)))
      · exact .inr (.inr (.inr (.inr (.inl h))))
      · exact absurd (anomalyType_of_mem_iteCont h) hct
      · exact absurd (anomalyType_of_mem_iteMis h) hbm
      · exact .inr (.inr (.inr (.inr (.inr (.inr (.inr (.inl h)))))))
      · exact .inr (.inr (.inr (.inr (.inr (.inr (.inr (.inr h)))))))

/-- Witness for C9: a frame with only an `InvalidAction` row and both
pass-through columns absent still reports that row, and the reported record
is not a `ContinuityBreak`. -/
theorem passthroughColumns_optional_witness :
    (mkAnomaly invalidRow "InvalidAction" "Action contains INVALID").anomalyType ≠
      "ContinuityBreak" :=
  (passthroughColumns_optional sampleACfg [invalidRow] false false
    (mkAnomaly invalidRow "InvalidAction" "Action contains INVALID")).1 rfl (by decide)

/-! ## C10: unknown timestamps are never Burst or RapidManualDeduction -/

/-- C10: a row with an unknown timestamp can never satisfy the Burst or
RapidManualDeduction masks (the time gap is undefined), and consequently
every `Burst` or `RapidManualDeduction` record in the output carries a known
timestamp. -/
theorem unknownTimestamp_spec (cfg : AnomalyConfig) (tbl : LedgerTable) :
    (∀ r prev, r.timestamp = none → rapidMask cfg.dupTimeWindow r prev = false) ∧
    (∀ r prev, r.timestamp = none → burstMask r prev = false) ∧
    (∀ rec, rec ∈ detectAnomalies cfg tbl →
      rec.anomalyType = "Burst" ∨ rec.anomalyType = "RapidManualDeduction" →
      ∃ t, rec.timestamp = some t) := by
  have hrapid : ∀ (r : LedgerRow) (prev : Option ℚ), r.timestamp = none →
      rapidMask cfg.dupTimeWindow r prev = false := by
    intro r prev ht
    unfold rapidMask
    rw [ht]
    cases prev <;> simp
  have hburst : ∀ (r : LedgerRow) (prev : Option ℚ), r.timestamp = none →
      burstMask r prev = false := by
    intro r prev ht
    unfold burstMask
    rw [ht]
  refine ⟨hrapid, hburst, ?_⟩
  intro rec hmem hk
  rcases mem_allPasses_elim _ _ _ ((mem_detectAnomalies_iff _ _ _).mp hmem) with
    h | h | h | h | h | h | h | h | h
  · rcases hk with hk | hk <;>
      exact absurd ((anomalyType_of_mem_invalidPass h).symm.trans hk) (by decide)
  · rcases hk with hk | hk <;>
      exact absurd ((anomalyType_of_mem_madSpikePass h).symm.trans hk) (by decide)
  · rcases hk with hk | hk <;>
      exact absurd ((anomalyType_of_mem_dupIdPass h).symm.trans hk) (by decide)
  · rcases hk with hk | hk <;>
      exact absurd ((anomalyType_of_mem_missingFieldPass h).symm.trans hk) (by decide)
  · obtain ⟨pr, hpr, rfl⟩ := List.mem_map.mp h
    have hm : rapidMask cfg.dupTimeWindow pr.1 pr.2 = true := (List.mem_filter.mp hpr).2
    cases hts : pr.1.timestamp with
    | none =>
      rw [hrapid pr.1 pr.2 hts] at hm
      exact Bool.noConfusion hm
    | some t => exact ⟨t, hts⟩
  · rcases hk with hk | hk <;>
      exact absurd ((anomalyType_of_mem_iteCont h).symm.trans hk) (by decide)
  · rcases hk with hk | hk <;>
      exact absurd ((anomalyType_of_mem_iteMis h).symm.trans hk) (by decide)
  · obtain ⟨pr, hpr, rfl⟩ := List.mem_map.mp h
    have hm : burstMask pr.1 pr.2 = true := (List.mem_filter.mp hpr).2
    cases hts : pr.1.timestamp with
    | none =>
      rw [hburst pr.1 pr.2 hts] at hm
      exact Bool.noConfusion hm
    | some t => exact ⟨t, hts⟩
  · rcases hk with hk | hk <;>
      exact absurd ((anomalyType_of_mem_currencyPass h).symm.trans hk) (by decide)

/-- Witness for C10: the Burst record produced by `burstRows` carries the
known timestamp of its row. -/
theorem unknownTimestamp_spec_witness :
    ∃ t, (mkAnomaly burstLaterRow "Burst"
        "Transactions within one second of each other").timestamp = some t :=
  (unknownTimestamp_spec sampleACfg { rows := burstRows }).2.2
    (mkAnomaly burstLaterRow "Burst" "Transactions within one second of each other")
    (by decide) (Or.inl rfl)

end CaloLogs
